import Mathlib

/-!
Shallow embedding of `src/ring.rs` (crate `lingo`): the `Ring` and
`RingSignature` data model for a linkable ring signature scheme, together
with the three ring constructors for the two concrete curve instantiations
(Ed25519 twisted-Edwards and secp256k1 short-Weierstrass).

Modelling conventions:
* The only point-producing operation the file uses is
  `GENERATOR.mul_bigint(k).into_affine()`.  Both generators have prime
  order, so the points reachable this way form the cyclic subgroup
  generated by the base point, and `g·a = g·b` iff `a ≡ b (mod order)`.
  We therefore identify such a point with its discrete logarithm: a point
  of curve `X` is a `Nat` below the order, and `mul_bigint` is reduction
  mod the order (`edPub` / `secpPub`).  Constructors that accept foreign
  points (`from_pubkeys`, `from_fixed_pubkeys`) stay polymorphic in the
  point type `P`.
* `BigInteger256` scalars are `Nat` (the Rust type bounds them by `2^256`;
  no operation here depends on that bound).  `is_zero` is `= 0`.
* `rand::thread_rng` sampling is made explicit: `Ring.new` takes a
  `stream : Nat → Nat` and the i-th sample is `stream i`.
* Panics (`assert!`, out-of-bounds indexing, `copy_from_slice` length
  mismatch, out-of-range slicing) are modelled by `Option`: `none` is a
  panic.  The slice/vector primitives below reproduce the exact panic
  conditions of their Rust counterparts.
* `PhantomData` fields are zero-sized and are dropped.
-/

namespace Lingo

/-- Order of the prime-order subgroup generated by the Ed25519 base point
(the group `ark_ed25519::EdwardsConfig::GENERATOR` generates). -/
def edOrder : Nat := 2 ^ 252 + 27742317777372353535851937790883648493

/-- Order of the secp256k1 group generated by `ark_secp256k1::Config::GENERATOR`. -/
def secpOrder : Nat :=
  115792089237316195423570985008687907852837564279074904382605163141518161494337

/-- `EdwardsConfig::GENERATOR.mul_bigint(k).into_affine()`, a point of the
cyclic subgroup identified with its discrete logarithm mod `edOrder`. -/
def edPub (k : Nat) : Nat := k % edOrder

/-- `Config::GENERATOR.mul_bigint(k).into_affine()` for secp256k1,
identified with its discrete logarithm mod `secpOrder`. -/
def secpPub (k : Nat) : Nat := k % secpOrder

/-- `struct Ring { keys: Vec<P>, curve: PhantomData<C> }` (the phantom
field is zero-sized and omitted). -/
structure Ring (P : Type) where
  keys : List P
deriving DecidableEq

/-- `Ring::size`: `self.keys.len()`. -/
def Ring.size {P : Type} (r : Ring P) : Nat := r.keys.length

/-- `Vec::swap(i, j)`: exchanges two elements, panicking (`none`) when an
index is out of bounds. -/
def vecSwap {P : Type} (l : List P) (i j : Nat) : Option (List P) :=
  match l[i]?, l[j]? with
  | some a, some b => some ((l.set i b).set j a)
  | _, _ => none

/-- `<[T]>::copy_from_slice(src)`: replaces the destination contents by
`src`, panicking (`none`) when the two lengths differ. -/
def copy_from_slice {P : Type} (dst src : List P) : Option (List P) :=
  if dst.length = src.length then some src else none

/-- `v[i] = x` on a vector: panics (`none`) when `i` is out of bounds. -/
def vecSet {P : Type} (l : List P) (i : Nat) (x : P) : Option (List P) :=
  if i < l.length then some (l.set i x) else none

/-- `&v[a..b]` sub-slicing: panics (`none`) unless `a ≤ b ≤ v.len()`. -/
def vecSlice {P : Type} (l : List P) (a b : Nat) : Option (List P) :=
  if a ≤ b ∧ b ≤ l.length then some ((l.drop a).take (b - a)) else none

/-- `Ring::new(ring_size, private_key, index)`, common body of the Ed25519
and secp256k1 `impl` blocks, which differ only in the map
`pub : Nat → P` standing for `GENERATOR.mul_bigint(·).into_affine()`:
assert the two preconditions, sample one scalar per element of
`0..ring_size` from the stream and map each through the generator, push
the real public key, then `swap(index, ring_size - 1)`. -/
def Ring.new {P : Type} (pub : Nat → P) (ring_size : Nat) (private_key : Nat)
    (index : Nat) (stream : Nat → Nat) : Option (Ring P) :=
  if index < ring_size then
    if private_key ≠ 0 then
      let public_key := pub private_key
      let public_keys : List P := (List.range ring_size).map fun i => pub (stream i)
      let public_keys := public_keys ++ [public_key]
      match vecSwap public_keys index (ring_size - 1) with
      | some ks => some ⟨ks⟩
      | none => none
    else none
  else none

/-- `Ring::new` of the Ed25519 `impl` block. -/
def Ring.newEd (ring_size : Nat) (private_key : Nat) (index : Nat)
    (stream : Nat → Nat) : Option (Ring Nat) :=
  Ring.new edPub ring_size private_key index stream

/-- `Ring::new` of the secp256k1 `impl` block. -/
def Ring.newSecp (ring_size : Nat) (private_key : Nat) (index : Nat)
    (stream : Nat → Nat) : Option (Ring Nat) :=
  Ring.new secpPub ring_size private_key index stream

/-- `Ring::from_pubkeys` of the Ed25519 `impl` block:
`let mut ring = Vec::with_capacity(size)` (an empty vector), then in
source order `ring.copy_from_slice(&pubs[0..index])`,
`ring[index] = public_key`, `ring.copy_from_slice(&pubs[index + 1..])`. -/
def Ring.from_pubkeysEd {P : Type} (pub : Nat → P) (pubs : List P)
    (private_key : Nat) (index : Nat) : Option (Ring P) :=
  let size := pubs.length + 1
  if private_key ≠ 0 then
    if index < size then
      let public_key := pub private_key
      (vecSlice pubs 0 index).bind fun s1 =>
      (copy_from_slice ([] : List P) s1).bind fun r1 =>
      (vecSet r1 index public_key).bind fun r2 =>
      (vecSlice pubs (index + 1) pubs.length).bind fun s2 =>
      (copy_from_slice r2 s2).bind fun r3 =>
      some ⟨r3⟩
    else none
  else none

/-- `Ring::from_pubkeys` of the secp256k1 `impl` block: same pieces but in
source order `ring[index] = public_key` first, then the two
`copy_from_slice` calls. -/
def Ring.from_pubkeysSecp {P : Type} (pub : Nat → P) (pubs : List P)
    (private_key : Nat) (index : Nat) : Option (Ring P) :=
  let size := pubs.length + 1
  if private_key ≠ 0 then
    if index < size then
      let public_key := pub private_key
      (vecSet ([] : List P) index public_key).bind fun r1 =>
      (vecSlice pubs 0 index).bind fun s1 =>
      (copy_from_slice r1 s1).bind fun r2 =>
      (vecSlice pubs (index + 1) pubs.length).bind fun s2 =>
      (copy_from_slice r2 s2).bind fun r3 =>
      some ⟨r3⟩
    else none
  else none

/-- `Ring::from_fixed_pubkeys` (identical in both `impl` blocks):
`assert!(public_keys.len() > 0)` then wrap as-is. -/
def Ring.from_fixed_pubkeys {P : Type} (public_keys : List P) : Option (Ring P) :=
  if public_keys.length > 0 then some ⟨public_keys⟩ else none

/-- `struct RingSignature { ring, challenge, ring_sig_vals, image, curve }`
(the borrow and the phantom field are dropped; `ring` holds the referenced
ring's value). -/
structure RingSignature (P B : Type) where
  ring : Ring P
  challenge : B
  ring_sig_vals : List B
  image : P
deriving DecidableEq

/-- `RingSignature::public_keys`: `&self.ring.keys`. -/
def RingSignature.public_keys {P B : Type} (s : RingSignature P B) : List P :=
  s.ring.keys

/-- `RingSignature::ring`: `self.ring` (accessor method). -/
def RingSignature.getRing {P B : Type} (s : RingSignature P B) : Ring P :=
  s.ring

/-- A `RingSignature` aggregate with one ring member and an empty response
vector, constructible because all fields are public. -/
def badSig : RingSignature Nat Nat := ⟨⟨[0]⟩, 0, [], 0⟩


theorem vecSwap_length_eq {P : Type} {l l2 : List P} {i j : Nat}
    (h : vecSwap l i j = some l2) : l2.length = l.length := by
  unfold vecSwap at h
  split at h
  · cases h; simp
  · simp at h

theorem vecSwap_exists {P : Type} {l : List P} {i j : Nat}
    (hi : i < l.length) (hj : j < l.length) :
    ∃ l2, vecSwap l i j = some l2 := by
  unfold vecSwap
  rw [List.getElem?_eq_getElem hi, List.getElem?_eq_getElem hj]
  exact ⟨_, rfl⟩

theorem new_eq_some {P : Type} (pub : Nat → P) (rs sk idx : Nat)
    (stream : Nat → Nat) (h1 : idx < rs) (h2 : sk ≠ 0) :
    ∃ r, Ring.new pub rs sk idx stream = some r := by
  simp only [Ring.new, if_pos h1, if_pos h2]
  obtain ⟨l2, hsw⟩ :=
    vecSwap_exists (l := ((List.range rs).map fun i => pub (stream i)) ++ [pub sk])
      (i := idx) (j := rs - 1) (by simp; omega) (by simp; omega)
  rw [hsw]
  exact ⟨_, rfl⟩

theorem new_some_size {P : Type} {pub : Nat → P} {rs sk idx : Nat}
    {stream : Nat → Nat} {r : Ring P}
    (h : Ring.new pub rs sk idx stream = some r) : r.size = rs + 1 := by
  simp only [Ring.new] at h
  split at h
  · split at h
    · split at h
      next ks hsw =>
        cases h
        have hlen := vecSwap_length_eq hsw
        simp [Ring.size, hlen]
      next => simp at h
    · simp at h
  · simp at h

theorem from_pubkeysEd_eq_none {P : Type} (pub : Nat → P) (pubs : List P)
    (sk idx : Nat) : Ring.from_pubkeysEd pub pubs sk idx = none := by
  by_cases h2 : sk ≠ 0
  · by_cases h1 : idx < pubs.length + 1
    · simp only [Ring.from_pubkeysEd, if_pos h2, if_pos h1]
      have hs1 : vecSlice pubs 0 idx = some (List.take idx pubs) := by
        simp only [vecSlice]
        rw [if_pos ⟨Nat.zero_le _, by omega⟩]
        simp
      rw [hs1]
      rcases Nat.eq_zero_or_pos idx with h0 | hpos
      · subst h0
        simp [copy_from_slice, vecSet]
      · have hcopy : copy_from_slice ([] : List P) (List.take idx pubs) = none := by
          simp only [copy_from_slice, List.length_nil, List.length_take]
          rw [if_neg]
          omega
        simp [hcopy]
    · simp only [Ring.from_pubkeysEd, if_pos h2, if_neg h1]
  · simp only [Ring.from_pubkeysEd, if_neg h2]

theorem from_pubkeysSecp_eq_none {P : Type} (pub : Nat → P) (pubs : List P)
    (sk idx : Nat) : Ring.from_pubkeysSecp pub pubs sk idx = none := by
  by_cases h2 : sk ≠ 0
  · by_cases h1 : idx < pubs.length + 1
    · simp only [Ring.from_pubkeysSecp, if_pos h2, if_pos h1]
      have hset : vecSet ([] : List P) idx (pub sk) = none := by
        simp [vecSet]
      simp [hset]
    · simp only [Ring.from_pubkeysSecp, if_pos h2, if_neg h1]
  · simp only [Ring.from_pubkeysSecp, if_neg h2]

theorem from_fixed_some_size {P : Type} {l : List P} {r : Ring P}
    (h : Ring.from_fixed_pubkeys l = some r) : 1 ≤ r.size := by
  unfold Ring.from_fixed_pubkeys at h
  split at h
  next hpos => cases h; exact hpos
  next => simp at h


/-- Claim C1 (refuted by the code, code bug): with `ring_size = 2`,
`private_key = 1`, `index = 0` and sampled decoy scalars 2 and 3, both
curve instantiations of `Ring::new` return the key list `[3, 2, 1]`: the
key at position `index = 0` is the decoy image of 3, not the real key
`generator·1`, which instead sits at the extra final position 2; the
boundary run `index = ring_size - 1 = 1` likewise leaves the real key at
position 2. -/
theorem C1_real_key_misplaced :
    Ring.newEd 2 1 0 (fun i => i + 2) = some ⟨[3, 2, 1]⟩ ∧
    Ring.newSecp 2 1 0 (fun i => i + 2) = some ⟨[3, 2, 1]⟩ ∧
    Ring.newEd 2 1 1 (fun i => i + 2) = some ⟨[2, 3, 1]⟩ ∧
    Ring.newSecp 2 1 1 (fun i => i + 2) = some ⟨[2, 3, 1]⟩ ∧
    edPub 1 = 1 ∧ secpPub 1 = 1 ∧ (3 : Nat) ≠ 1 := by
  refine ⟨by decide, by decide, by decide, by decide, by decide, by decide, by decide⟩

/-- Claim C2 (refuted by the code, code bug): for every input passing the
asserts, `Ring::new` returns a ring of size `ring_size + 1`, not
`ring_size`: the constructor samples one decoy per element of
`0..ring_size` before pushing the real key. -/
theorem C2_new_size_off_by_one {P : Type} (pub : Nat → P) (rs sk idx : Nat)
    (stream : Nat → Nat) (h1 : idx < rs) (h2 : sk ≠ 0) :
    (Ring.new pub rs sk idx stream).map Ring.size = some (rs + 1) := by
  obtain ⟨r, hr⟩ := new_eq_some pub rs sk idx stream h1 h2
  rw [hr]
  simp [new_some_size hr]

/-- Witness for C2 at `ring_size = 2`, `private_key = 1`, `index = 0`. -/
theorem C2_new_size_off_by_one_witness :
    (Ring.newEd 2 1 0 (fun i => i + 2)).map Ring.size = some 3 :=
  C2_new_size_off_by_one edPub 2 1 0 (fun i => i + 2) (by decide) (by decide)

/-- Claim C3 (refuted by the code, code bug): `Ring::from_pubkeys` never
returns a ring on any input on either curve: every execution panics,
because the `copy_from_slice` calls and the index assignment operate on
the empty vector produced by `Vec::with_capacity`, so the described
insertion never happens. -/
theorem C3_from_pubkeys_always_panics {P : Type} (pub : Nat → P)
    (pubs : List P) (sk idx : Nat) :
    Ring.from_pubkeysEd pub pubs sk idx = none ∧
    Ring.from_pubkeysSecp pub pubs sk idx = none :=
  ⟨from_pubkeysEd_eq_none pub pubs sk idx, from_pubkeysSecp_eq_none pub pubs sk idx⟩

/-- Claim C4 (refuted by the code, code bug): `from_pubkeys` fails even
when its stated precondition holds (`private_key = 1 ≠ 0` and
`index = 0 < pubs.len() + 1`), on both curves; the `from_fixed_pubkeys`
half of the claim does hold on these inputs: it fails on the empty list
and succeeds on a non-empty one. -/
theorem C4_failure_beyond_preconditions :
    (1 : Nat) ≠ 0 ∧ (0 : Nat) < 0 + 1 ∧
    Ring.from_pubkeysEd edPub ([] : List Nat) 1 0 = none ∧
    Ring.from_pubkeysSecp secpPub ([] : List Nat) 1 0 = none ∧
    Ring.from_fixed_pubkeys ([] : List Nat) = none ∧
    Ring.from_fixed_pubkeys [(1 : Nat)] = some ⟨[1]⟩ := by
  refine ⟨by decide, by decide, by decide, by decide, by decide, by decide⟩

/-- Claim C5 (refuted by the code, code bug): decoy sampling performs no
zero-rejection: under a random stream that yields the scalar 0, both
instantiations of `Ring::new` return `[0, 0, 1]`, whose decoy entries
(positions 0 and 1, position `index = 1` among them) are the image of the
zero scalar, i.e. the group identity. -/
theorem C5_zero_scalar_not_rejected :
    Ring.newEd 2 1 1 (fun _ => 0) = some ⟨[0, 0, 1]⟩ ∧
    Ring.newSecp 2 1 1 (fun _ => 0) = some ⟨[0, 0, 1]⟩ ∧
    edPub 0 = 0 ∧ secpPub 0 = 0 := by
  refine ⟨by decide, by decide, by decide, by decide⟩

/-- Claim C6 (confirmed): `from_fixed_pubkeys` on a non-empty list wraps
it as-is: the stored key list is the input list itself, same length and
elements in the same order, and the definition consults no random
stream. -/
theorem C6_from_fixed_roundtrip {P : Type} (l : List P) (h : l ≠ []) :
    Ring.from_fixed_pubkeys l = some ⟨l⟩ := by
  unfold Ring.from_fixed_pubkeys
  rw [if_pos (by cases l with | nil => exact absurd rfl h | cons a t => simp)]

/-- Witness for C6 on the one-element list `[5]`. -/
theorem C6_from_fixed_roundtrip_witness :
    Ring.from_fixed_pubkeys [(5 : Nat)] = some ⟨[5]⟩ :=
  C6_from_fixed_roundtrip [5] (by decide)

/-- Claim C7, counterexample: `badSig` is a `RingSignature` value whose
response-vector length (0) differs from the size of its ring (1), so the
claimed invariant does not hold of every `RingSignature` value. -/
theorem C7_cex : ¬ (badSig.ring_sig_vals.length = badSig.ring.size) := by
  decide

/-- Claim C7 (amended): the invariant `ring_sig_vals.len() = ring.size()`
is not enforced by the type: `RingSignature` is a plain aggregate with
public fields, so both violating and satisfying values are
constructible. -/
theorem C7_invariant_not_enforced :
    (∃ s : RingSignature Nat Nat, ¬ (s.ring_sig_vals.length = s.ring.size)) ∧
    (∃ s : RingSignature Nat Nat, s.ring_sig_vals.length = s.ring.size) :=
  ⟨⟨⟨⟨[0]⟩, 0, [], 0⟩, by decide⟩, ⟨⟨⟨[0]⟩, 0, [0], 0⟩, by decide⟩⟩

/-- Claim C8 (confirmed): `RingSignature::public_keys` returns exactly the
referenced ring's key list (same length, content and order), and
`RingSignature::ring` returns that same ring. -/
theorem C8_public_keys_view {P B : Type} (s : RingSignature P B) :
    s.public_keys = s.getRing.keys ∧ s.getRing = s.ring :=
  ⟨rfl, rfl⟩

/-- Claim C9 (confirmed): every ring any constructor returns, on either
curve, is non-empty: `Ring::new` returns rings of size `ring_size + 1 ≥ 1`,
`from_fixed_pubkeys` insists on a non-empty input, and `from_pubkeys`
never returns a ring at all, so the property holds vacuously there. -/
theorem C9_constructed_rings_nonempty {P : Type} (pub : Nat → P)
    (rs sk idx : Nat) (stream : Nat → Nat) (pubs l : List P) (r : Ring P)
    (h : Ring.new pub rs sk idx stream = some r ∨
         Ring.from_pubkeysEd pub pubs sk idx = some r ∨
         Ring.from_pubkeysSecp pub pubs sk idx = some r ∨
         Ring.from_fixed_pubkeys l = some r) :
    1 ≤ r.size := by
  rcases h with h | h | h | h
  · rw [new_some_size h]; omega
  · rw [from_pubkeysEd_eq_none] at h; simp at h
  · rw [from_pubkeysSecp_eq_none] at h; simp at h
  · exact from_fixed_some_size h

/-- Witness for C9: the ring `Ring::new` returns at `ring_size = 2`,
`private_key = 1`, `index = 0` under the all-zero stream is non-empty. -/
theorem C9_constructed_rings_nonempty_witness :
    1 ≤ (Ring.mk [0, 0, 1] : Ring Nat).size :=
  C9_constructed_rings_nonempty edPub 2 1 0 (fun _ => 0) [] [] ⟨[0, 0, 1]⟩
    (Or.inl (by decide))

/-- Claim C10 (confirmed): `Ring::new` is a deterministic function of its
inputs together with the sampled scalar stream: two streams agreeing on
the `ring_size` consulted samples yield equal results (the other two
constructors take no stream at all, so their determinism is that of plain
functions). -/
theorem C10_new_deterministic {P : Type} (pub : Nat → P) (rs sk idx : Nat)
    (s1 s2 : Nat → Nat) (h : ∀ i, i < rs → s1 i = s2 i) :
    Ring.new pub rs sk idx s1 = Ring.new pub rs sk idx s2 := by
  have hmap : ((List.range rs).map fun i => pub (s1 i)) =
      (List.range rs).map fun i => pub (s2 i) :=
    List.map_congr_left fun a ha => by rw [h a (List.mem_range.mp ha)]
  simp only [Ring.new, hmap]

/-- Witness for C10: two streams that differ only beyond the consulted
range give the same ring. -/
theorem C10_new_deterministic_witness :
    Ring.newEd 2 1 0 (fun i => i) =
      Ring.newEd 2 1 0 (fun i => if i < 2 then i else 99) :=
  C10_new_deterministic edPub 2 1 0 (fun i => i)
    (fun i => if i < 2 then i else 99)
    (fun i hi => by show i = if i < 2 then i else 99; rw [if_pos hi])

end Lingo
